import Mathlib

/-!
Verification development for the CI timeline visualizer
(`scripts/ci/timeline.py`).

The rendering and metrics core of the script is embedded shallowly:

* Python `datetime` values and second counts are modelled as exact
  rationals (`ℚ`); `datetime` subtraction / `.timestamp()` both yield
  seconds, so a single `ℚ` value plays both roles.
* Python `str` values are modelled as `List Char`; the helpers
  `pyLjust`, `pyRjust`, `pyCenterFmt`, `pyStrip`, `pyReplace` model the
  corresponding `str` operations and f-string format specifiers.
* Python `int(x)` (truncation towards zero) is `pyInt`, float floor
  division `//` is `pyFloorDiv` and float `%` is `pyMod`.
* Python `dict` built by a comprehension is modelled by `dictInsert` /
  `jobsDict` (insertion order preserved, later value overwrites earlier
  at the same key), and Python's stable `sorted` by
  `List.insertionSort`, which is likewise a stable sort.

Only the pure rendering core is embedded; subprocess, JSON and argument
glue of the script is out of scope of the claims treated here.
-/

attribute [local semireducible] Rat.mul Rat.add Rat.sub Rat.inv

/-- Truncation towards zero, the behaviour of Python `int(x)` on a real
number. -/
def pyInt (q : ℚ) : ℤ :=
  if 0 ≤ q then q.floor else -((-q).floor)

/-- Python float floor division `a // b` (result is again a float). -/
def pyFloorDiv (a b : ℚ) : ℚ :=
  ((a / b).floor : ℚ)

/-- Python float modulo `a % b`, equal to `a - b * (a // b)`. -/
def pyMod (a b : ℚ) : ℚ :=
  a - b * ((a / b).floor : ℚ)

/-- The decimal digit characters, as produced by Python `str(int)` for
one digit. -/
def pyDigit : ℕ → Char
  | 0 => '0' | 1 => '1' | 2 => '2' | 3 => '3' | 4 => '4'
  | 5 => '5' | 6 => '6' | 7 => '7' | 8 => '8' | _ => '9'

/-- Fuel-driven decimal rendering of a natural number (structural
recursion so that concrete instances evaluate by `decide`). -/
def natToCharsAux : ℕ → ℕ → List Char
  | 0, _ => []
  | fuel + 1, n => if n < 10 then [pyDigit n]
      else natToCharsAux fuel (n / 10) ++ [pyDigit (n % 10)]

/-- Decimal rendering of a natural number, as Python `str(n)`. -/
def natToChars (n : ℕ) : List Char :=
  natToCharsAux (n + 1) n

/-- Decimal rendering of an integer, as Python `str(i)` (a leading `-`
for negative values). -/
def intToChars (i : ℤ) : List Char :=
  if i < 0 then '-' :: natToChars (-i).toNat else natToChars i.toNat

/-- Python `s.ljust(w)` and the f-string specifier `{s:<w}`: pad on the
right with spaces up to width `w`; a longer string is left unchanged. -/
def pyLjust (s : List Char) (w : ℕ) : List Char :=
  s ++ List.replicate (w - s.length) ' '

/-- The f-string specifier `{s:>w}`: pad on the left with spaces up to
width `w`; a longer string is left unchanged. -/
def pyRjust (s : List Char) (w : ℕ) : List Char :=
  List.replicate (w - s.length) ' ' ++ s

/-- The f-string specifier `{s:^w}`: centre `s` in width `w`, the extra
space (for odd padding) going to the right. -/
def pyCenterFmt (s : List Char) (w : ℕ) : List Char :=
  List.replicate ((w - s.length) / 2) ' ' ++ s ++
    List.replicate (w - s.length - (w - s.length) / 2) ' '

/-- ASCII whitespace recognised by Python `str.strip()`. -/
def pyIsSpace (c : Char) : Bool :=
  c = ' ' || c = '\t' || c = '\n' || c = '\r' || c = '\x0b' || c = '\x0c'

/-- Python `s.strip()`: remove leading and trailing whitespace. -/
def pyStrip (s : List Char) : List Char :=
  ((s.dropWhile pyIsSpace).reverse.dropWhile pyIsSpace).reverse

/-- Fuel-driven core of Python `s.replace(pat, rep)`: replace
non-overlapping occurrences of `pat` left to right. The fuel is the
length of the remaining string, consumed one unit per step. -/
def pyReplaceAux (pat rep : List Char) : ℕ → List Char → List Char
  | _, [] => []
  | 0, s => s
  | fuel + 1, c :: cs =>
      if pat ≠ [] && pat.isPrefixOf (c :: cs) then
        rep ++ pyReplaceAux pat rep fuel ((c :: cs).drop pat.length)
      else
        c :: pyReplaceAux pat rep fuel cs

/-- Python `s.replace(pat, rep)` for a non-empty pattern. -/
def pyReplace (s pat rep : List Char) : List Char :=
  pyReplaceAux pat rep s.length s

/-- Python `name.split("/")[-1]`: the substring after the last slash
(the whole string when no slash occurs). -/
def afterLastSlash (s : List Char) : List Char :=
  (s.reverse.takeWhile (fun c => c ≠ '/')).reverse

/-- Python `min` over a generator of rationals (0 for an empty list;
every use in the script is guarded by a non-emptiness check). -/
def pyMin : List ℚ → ℚ
  | [] => 0
  | x :: xs => xs.foldl min x

/-- Python `max` over a generator of rationals (0 for an empty list;
every use in the script is guarded by a non-emptiness check). -/
def pyMax : List ℚ → ℚ
  | [] => 0
  | x :: xs => xs.foldl max x

/-- Python string comparison `a <= b`: lexicographic by code point. -/
def strLe : List Char → List Char → Bool
  | [], _ => true
  | _ :: _, [] => false
  | a :: as, b :: bs => if a < b then true else if a = b then strLe as bs else false

/-- Propositional form of `strLe`, the order used to sort job names. -/
def strLeP (a b : List Char) : Prop := strLe a b = true

instance instDecRelStrLeP : DecidableRel strLeP :=
  fun a b => inferInstanceAs (Decidable (strLe a b = true))

/-- Python `"\n".join(lines)`. -/
def joinLines (lines : List (List Char)) : List Char :=
  List.intercalate ['\n'] lines

/-- Python `a or b` for an optional string `a` and default `b`: `b` is
used when `a` is `None` or empty (both falsy). -/
def pyOrStr (a : Option (List Char)) (b : List Char) : List Char :=
  match a with
  | some s => if s = [] then b else s
  | none => b

/-- A GitHub Actions job record (class `Job` of the script). Timestamps
are seconds since an arbitrary epoch. -/
structure Job where
  name : List Char
  status : List Char
  conclusion : Option (List Char)
  created_at : ℚ
  started_at : Option ℚ
  completed_at : Option ℚ
deriving DecidableEq

/-- Property `Job.queue_duration_seconds`: `started - created` when
started, else 0. -/
def Job.queue_duration_seconds (j : Job) : ℚ :=
  match j.started_at with
  | some s => s - j.created_at
  | none => 0

/-- Property `Job.run_duration_seconds`: `completed - started` when both
are present, else 0. -/
def Job.run_duration_seconds (j : Job) : ℚ :=
  match j.started_at, j.completed_at with
  | some s, some c => c - s
  | _, _ => 0

/-- Property `Job.total_duration_seconds`: `completed - created` when
completed, else 0. -/
def Job.total_duration_seconds (j : Job) : ℚ :=
  match j.completed_at with
  | some c => c - j.created_at
  | none => 0

/-- A workflow run record (class `WorkflowRun` of the script). -/
structure WorkflowRun where
  id : ℕ
  name : List Char
  status : List Char
  conclusion : Option (List Char)
  created_at : ℚ
  started_at : Option ℚ
  updated_at : ℚ
  jobs : List Job
deriving DecidableEq

/-- Function `format_duration`: seconds rendered as `"Ns"`, `"MmSs"` or
`"HhMm"`, each component obtained by Python `int`, `//` and `%`. -/
def format_duration (seconds : ℚ) : List Char :=
  if seconds < 60 then intToChars (pyInt seconds) ++ ['s']
  else if seconds < 3600 then
    intToChars (pyInt (pyFloorDiv seconds 60)) ++ ['m'] ++
      intToChars (pyInt (pyMod seconds 60)) ++ ['s']
  else
    intToChars (pyInt (pyFloorDiv seconds 3600)) ++ ['h'] ++
      intToChars (pyInt (pyFloorDiv (pyMod seconds 3600) 60)) ++ ['m']

/-- Constant `SPARK_BLOCKS`: the nine sparkline density glyphs, lowest
to highest. -/
def SPARK_BLOCKS : List Char := " ▁▂▃▄▅▆▇█".toList

/-- The filter applied by the sparkline and single-run renderers: jobs
with both `started_at` and `completed_at` set. -/
def completedFilter (jobs : List Job) : List Job :=
  jobs.filter (fun j => j.started_at.isSome && j.completed_at.isSome)

/-- The character the sparkline emits for bucket `i`: count the jobs
whose half-open running interval overlaps the bucket, then map the count
to a density glyph. -/
def sparkBucketChar (cjobs : List Job) (min_time bucket_seconds : ℚ)
    (max_parallelism : ℕ) (i : ℕ) : Char :=
  let bucket_start := min_time + (i : ℚ) * bucket_seconds
  let bucket_end := bucket_start + bucket_seconds
  let running_count := cjobs.countP (fun j =>
    decide (j.started_at.getD 0 < bucket_end) &&
      decide (j.completed_at.getD 0 > bucket_start))
  if running_count = 0 then SPARK_BLOCKS.getD 0 ' '
  else SPARK_BLOCKS.getD
    (min 8 (max 1 (pyInt ((running_count : ℚ) / (max_parallelism : ℚ) * 8)))).toNat ' '

/-- Function `render_sparkline`: job activity over time as a fixed-width
sparkline. -/
def render_sparkline (jobs : List Job) (width : ℕ) : List Char :=
  if jobs = [] then List.replicate width ' '
  else
    let completed_jobs := completedFilter jobs
    if completed_jobs = [] then List.replicate width ' '
    else
      let min_time := pyMin (completed_jobs.map (fun j => j.created_at))
      let max_time := pyMax (completed_jobs.map (fun j => j.completed_at.getD 0))
      let total_seconds := max_time - min_time
      if total_seconds = 0 then List.replicate width '█'
      else
        let bucket_seconds := total_seconds / (width : ℚ)
        let max_parallelism := completed_jobs.length
        (List.range width).map
          (sparkBucketChar completed_jobs min_time bucket_seconds max_parallelism)

/-- Function `render_job_bar`: a job timeline as a two-segment
horizontal bar (queued glyphs, then running glyphs, space padded). -/
def render_job_bar (queue_secs run_secs max_secs : ℚ) (width : ℕ) : List Char :=
  if max_secs = 0 then List.replicate width ' '
  else
    let total := queue_secs + run_secs
    let total_chars := pyInt (total / max_secs * (width : ℚ))
    let queue_chars := pyInt (queue_secs / max_secs * (width : ℚ))
    let run_chars := total_chars - queue_chars
    pyLjust (List.replicate queue_chars.toNat '░' ++
      List.replicate run_chars.toNat '█') width

/-- Function `normalize_job_name`: the segment after the last `/`,
stripped, with each known decoration substring removed (each
`str.replace` removes every occurrence). -/
def normalize_job_name (name : List Char) : List Char :=
  let s0 := pyStrip (afterLastSlash name)
  let s1 := pyReplace s0 "build (".toList []
  let s2 := pyReplace s1 ")".toList []
  let s3 := pyReplace s2 "ubuntu-22.04, ".toList []
  let s4 := pyReplace s3 "ubuntu-24.04, ".toList []
  let s5 := pyReplace s4 "macos-14, ".toList []
  let s6 := pyReplace s5 "macos-15, ".toList []
  let s7 := pyReplace s6 "windows-2022, ".toList []
  let s8 := pyReplace s7 "windows-2025, ".toList []
  s8

/-- Python `max(jobs, key=...)` with a rational key: the first element
attaining the maximum (later elements replace only on strict increase). -/
def pyMaxBy (key : Job → ℚ) : List Job → Option Job
  | [] => none
  | j :: js => some (js.foldl (fun best x => if key x > key best then x else best) j)

/-- The descending-total-duration order used by
`sorted(jobs, key=lambda j: j.total_duration_seconds, reverse=True)`.
Python's sort is stable, as is `List.insertionSort`. -/
def jobTotalGe (a b : Job) : Prop :=
  b.total_duration_seconds ≤ a.total_duration_seconds

instance instDecRelJobTotalGe : DecidableRel jobTotalGe :=
  fun a b =>
    inferInstanceAs (Decidable (b.total_duration_seconds ≤ a.total_duration_seconds))

/-- Function `render_single_run`: the full single-run report. -/
def render_single_run (run : WorkflowRun) (width : ℕ) : List Char :=
  if run.jobs = [] then "No jobs found".toList
  else
    let jobs := completedFilter run.jobs
    if jobs = [] then "No completed jobs with timing info".toList
    else
      let min_time := pyMin (jobs.map (fun j => j.created_at))
      let max_time := pyMax (jobs.map (fun j => j.completed_at.getD 0))
      let total_seconds := max_time - min_time
      if total_seconds = 0 then "All jobs completed instantly".toList
      else
        let sjobs := List.insertionSort jobTotalGe jobs
        let max_duration := pyMax (sjobs.map (fun j => j.total_duration_seconds))
        let header :=
          [List.replicate width '=',
           "Workflow: ".toList ++ run.name ++ " (Run #".toList ++
             natToChars run.id ++ ")".toList,
           "Status: ".toList ++ run.status ++ " / ".toList ++
             pyOrStr run.conclusion "in progress".toList,
           List.replicate width '=',
           []]
        let tableHeader :=
          pyLjust "Job".toList 40 ++ [' '] ++ pyLjust "Timeline".toList 22 ++
            [' '] ++ pyRjust "Queue".toList 7 ++ [' '] ++ pyRjust "Run".toList 7 ++
            [' '] ++ pyRjust "Total".toList 7
        let jobRow := fun (j : Job) =>
          pyLjust ((normalize_job_name j.name).take 38) 40 ++ [' '] ++
            render_job_bar j.queue_duration_seconds j.run_duration_seconds
              max_duration 20 ++
            "  ".toList ++ pyRjust (format_duration j.queue_duration_seconds) 7 ++
            [' '] ++ pyRjust (format_duration j.run_duration_seconds) 7 ++
            [' '] ++ pyRjust (format_duration j.total_duration_seconds) 7
        let total_queue := (sjobs.map (fun j => j.queue_duration_seconds)).sum
        let total_run := (sjobs.map (fun j => j.run_duration_seconds)).sum
        let max_queue := pyMax (sjobs.map (fun j => j.queue_duration_seconds))
        let sparkline := render_sparkline sjobs 50
        let critical :=
          match pyMaxBy (fun j => j.completed_at.getD 0) sjobs with
          | some last_job =>
              "Critical path: ".toList ++ normalize_job_name last_job.name ++
                " (queue ".toList ++
                format_duration last_job.queue_duration_seconds ++
                ", run ".toList ++
                format_duration last_job.run_duration_seconds ++ ")".toList
          | none => []
        joinLines
          (header ++ [tableHeader, List.replicate width '-'] ++
           sjobs.map jobRow ++
           [List.replicate width '-',
            [],
            "Wall clock: ".toList ++ pyRjust (format_duration total_seconds) 10 ++
              "    Sum of run times: ".toList ++ pyRjust (format_duration total_run) 10,
            "Max queue:  ".toList ++ pyRjust (format_duration max_queue) 10 ++
              "    Sum of queue times: ".toList ++ pyRjust (format_duration total_queue) 10,
            [],
            "Activity:   ".toList ++ sparkline,
            List.replicate 12 ' ' ++ pyCenterFmt "0".toList 10 ++
              pyCenterFmt (format_duration (total_seconds / 2)) 30 ++
              pyRjust (format_duration total_seconds) 10,
            [],
            critical,
            [],
            "Legend: █ running  ░ queued".toList])

/-- Insertion into the association-list model of a Python `dict`: an
existing key keeps its position but takes the new value, a new key is
appended. -/
def dictInsert : List (List Char × Job) → List Char → Job → List (List Char × Job)
  | [], k, v => [(k, v)]
  | (k0, v0) :: rest, k, v =>
      if k0 = k then (k0, v) :: rest else (k0, v0) :: dictInsert rest k v

/-- The dict comprehension
`{normalize_job_name(j.name): j for j in jobs if j.completed_at}`:
insertion order over `jobs`, a later job with the same normalized name
silently overwriting an earlier one. -/
def jobsDict (jobs : List Job) : List (List Char × Job) :=
  jobs.foldl
    (fun m j =>
      if j.completed_at.isSome then dictInsert m (normalize_job_name j.name) j
      else m)
    []

/-- Python `d.get(k)` on the association-list dict model. -/
def dictGet (m : List (List Char × Job)) (k : List Char) : Option Job :=
  (m.find? (fun p => p.1 = k)).map Prod.snd

/-- Python `d.keys()` in insertion order. -/
def dictKeys (m : List (List Char × Job)) : List (List Char) :=
  m.map Prod.fst

/-- Python `d.values()` in insertion order. -/
def dictValues (m : List (List Char × Job)) : List Job :=
  m.map Prod.snd

/-- Line `sorted(set(jobs1.keys()) | set(jobs2.keys()))`: the union of
the two runs' normalized names, sorted lexicographically. -/
def allJobNames (jobs1 jobs2 : List (List Char × Job)) : List (List Char) :=
  List.insertionSort strLeP (dictKeys jobs1 ++ dictKeys jobs2).dedup

/-- The per-job delta tag of the unified diff: `"~same"` within 60
seconds, otherwise a signed formatted duration. -/
def delta_str (run_delta : ℚ) : List Char :=
  if |run_delta| < 60 then "~same".toList
  else if run_delta > 0 then '+' :: format_duration run_delta
  else '-' :: format_duration (-run_delta)

/-- One row of the unified-diff job table: both bars and a delta tag
when the name is matched in both runs, otherwise one bar and a
`"(missing)"` marker on the other side. -/
def diffRow (max_duration : ℚ) (name : List Char) :
    Option Job → Option Job → Option (List Char)
  | some j1, some j2 =>
      some (pyLjust (name.take 26) 28 ++ [' '] ++
        render_job_bar j1.queue_duration_seconds j1.run_duration_seconds
          max_duration 16 ++ [' '] ++
        pyRjust (format_duration j1.total_duration_seconds) 6 ++ "  ".toList ++
        render_job_bar j2.queue_duration_seconds j2.run_duration_seconds
          max_duration 16 ++ [' '] ++
        pyRjust (format_duration j2.total_duration_seconds) 6 ++ "  ".toList ++
        pyRjust (delta_str (j2.run_duration_seconds - j1.run_duration_seconds)) 10)
  | some j1, none =>
      some (pyLjust (name.take 26) 28 ++ [' '] ++
        render_job_bar j1.queue_duration_seconds j1.run_duration_seconds
          max_duration 16 ++ [' '] ++
        pyRjust (format_duration j1.total_duration_seconds) 6 ++ "  ".toList ++
        pyLjust "(missing)".toList 23)
  | none, some j2 =>
      some (pyLjust (name.take 26) 28 ++ [' '] ++
        pyLjust "(missing)".toList 23 ++ "  ".toList ++
        render_job_bar j2.queue_duration_seconds j2.run_duration_seconds
          max_duration 16 ++ [' '] ++
        pyRjust (format_duration j2.total_duration_seconds) 6)
  | none, none => none

/-- Helper `get_wall_time` of `render_unified_diff`: wall-clock span of
the completed jobs of a run, 0 if there are none. -/
def get_wall_time (run : WorkflowRun) : ℚ :=
  let jobs := run.jobs.filter (fun j => j.completed_at.isSome)
  if jobs = [] then 0
  else pyMax (jobs.map (fun j => j.completed_at.getD 0)) -
    pyMin (jobs.map (fun j => j.created_at))

/-- The sign prefix and right-justified magnitude of an aggregate delta
column of the unified diff: `'+' if delta > 0 else ''` followed by
`format_duration(abs(delta))` right-justified to 10. -/
def deltaColumn (d : ℚ) : List Char :=
  (if d > 0 then ['+'] else []) ++ pyRjust (format_duration |d|) 10

/-- The "KEY INSIGHT" narrative lines of the unified diff, from the
aggregate run-duration delta, queue-duration delta and wall-clock
delta. -/
def insightLines (total_run_delta total_queue_delta wall_delta : ℚ) :
    List (List Char) :=
  (if total_run_delta < -60 then
    ["  Run 2 saved ".toList ++ format_duration (-total_run_delta) ++
      " in actual build time across all jobs.".toList]
  else if total_run_delta > 60 then
    ["  Run 2 spent ".toList ++ format_duration total_run_delta ++
      " MORE in actual build time across all jobs.".toList]
  else
    ["  Actual build times are roughly the same.".toList]) ++
  (if total_queue_delta > 60 then
    ["  BUT Run 2 had ".toList ++ format_duration total_queue_delta ++
      " MORE queue wait time.".toList]
  else if total_queue_delta < -60 then
    ["  AND Run 2 had ".toList ++ format_duration (-total_queue_delta) ++
      " LESS queue wait time.".toList]
  else []) ++
  (if wall_delta > 0 ∧ total_run_delta < 0 then
    [[],
     "  Despite faster builds, wall clock time increased due to runner queue delays!".toList]
  else if wall_delta < 0 ∧ total_run_delta < 0 then
    [[],
     "  Build time savings translated to faster wall clock time.".toList]
  else [])

/-- Function `render_unified_diff`: the full two-run comparison
report. -/
def render_unified_diff (run1 run2 : WorkflowRun) (width : ℕ) : List Char :=
  let jobs1 := jobsDict run1.jobs
  let jobs2 := jobsDict run2.jobs
  let names := allJobNames jobs1 jobs2
  let all_durations := names.flatMap (fun name =>
    (match dictGet jobs1 name with
     | some j => [j.total_duration_seconds]
     | none => []) ++
    (match dictGet jobs2 name with
     | some j => [j.total_duration_seconds]
     | none => []))
  let max_duration := if all_durations = [] then 1 else pyMax all_durations
  let rows := names.filterMap
    (fun name => diffRow max_duration name (dictGet jobs1 name) (dictGet jobs2 name))
  let total_run_delta := (names.filterMap (fun name =>
    match dictGet jobs1 name, dictGet jobs2 name with
    | some j1, some j2 => some (j2.run_duration_seconds - j1.run_duration_seconds)
    | _, _ => none)).sum
  let total_queue_delta := (names.filterMap (fun name =>
    match dictGet jobs1 name, dictGet jobs2 name with
    | some j1, some j2 => some (j2.queue_duration_seconds - j1.queue_duration_seconds)
    | _, _ => none)).sum
  let wall1 := get_wall_time run1
  let wall2 := get_wall_time run2
  let wall_delta := wall2 - wall1
  let sum_run1 := ((dictValues jobs1).map (fun j => j.run_duration_seconds)).sum
  let sum_run2 := ((dictValues jobs2).map (fun j => j.run_duration_seconds)).sum
  let sum_queue1 := ((dictValues jobs1).map (fun j => j.queue_duration_seconds)).sum
  let sum_queue2 := ((dictValues jobs2).map (fun j => j.queue_duration_seconds)).sum
  joinLines
    ([List.replicate width '=',
      "COMPARING: Run #".toList ++ natToChars run1.id ++ " vs #".toList ++
        natToChars run2.id,
      List.replicate width '=',
      [],
      pyLjust "Job".toList 28 ++ [' '] ++ pyLjust "Run 1".toList 24 ++ [' '] ++
        pyLjust "Run 2".toList 24 ++ [' '] ++ pyRjust "Delta".toList 10,
      List.replicate width '-'] ++
     rows ++
     [List.replicate width '-',
      [],
      pyLjust "Wall clock:".toList 28 ++ [' '] ++
        pyRjust (format_duration wall1) 23 ++ "  ".toList ++
        pyRjust (format_duration wall2) 23 ++ "  ".toList ++
        deltaColumn wall_delta,
      pyLjust "Sum of run times:".toList 28 ++ [' '] ++
        pyRjust (format_duration sum_run1) 23 ++ "  ".toList ++
        pyRjust (format_duration sum_run2) 23 ++ "  ".toList ++
        deltaColumn total_run_delta,
      pyLjust "Sum of queue times:".toList 28 ++ [' '] ++
        pyRjust (format_duration sum_queue1) 23 ++ "  ".toList ++
        pyRjust (format_duration sum_queue2) 23 ++ "  ".toList ++
        deltaColumn total_queue_delta,
      [],
      List.replicate width '=',
      "KEY INSIGHT:".toList] ++
     insightLines total_run_delta total_queue_delta wall_delta ++
     [List.replicate width '=',
      [],
      "Legend: █ running  ░ queued".toList])

/-- The name normalization as the specification words it: substring
after the last `/`, trimmed, then the decorations stripped with `")"`
removed only as a single trailing character. This definition follows
the claim text and is compared against `normalize_job_name`, which
embeds the code. -/
def normalize_job_name_claimed (name : List Char) : List Char :=
  let s0 := pyStrip (afterLastSlash name)
  let s1 := pyReplace s0 "build (".toList []
  let s2 := if s1.getLast? = some ')' then s1.dropLast else s1
  let s3 := pyReplace s2 "ubuntu-22.04, ".toList []
  let s4 := pyReplace s3 "ubuntu-24.04, ".toList []
  let s5 := pyReplace s4 "macos-14, ".toList []
  let s6 := pyReplace s5 "macos-15, ".toList []
  let s7 := pyReplace s6 "windows-2022, ".toList []
  let s8 := pyReplace s7 "windows-2025, ".toList []
  s8

/-! ### Concrete sample data used to exercise the renderers -/

/-- A sample completed job with the given created/started/completed
timestamps. -/
def sampleJob (nm : List Char) (c s e : ℚ) : Job :=
  { name := nm, status := "completed".toList, conclusion := some "success".toList,
    created_at := c, started_at := some s, completed_at := some e }

/-- Baseline run of the end-to-end diff scenario: job "build" with
queue 30s and run 120s. -/
def sampleRun1 : WorkflowRun :=
  { id := 1, name := "CI".toList, status := "completed".toList,
    conclusion := some "success".toList, created_at := 0, started_at := some 0,
    updated_at := 200, jobs := [sampleJob "build".toList 0 30 150] }

/-- Comparison run of the end-to-end diff scenario: job "build" with
queue 30s and run 50s. -/
def sampleRun2 : WorkflowRun :=
  { id := 2, name := "CI".toList, status := "completed".toList,
    conclusion := some "success".toList, created_at := 0, started_at := some 0,
    updated_at := 100, jobs := [sampleJob "build".toList 0 30 80] }

/-- A run all of whose jobs carry identical timestamps, so that its
wall-clock span is zero. -/
def sampleInstantRun : WorkflowRun :=
  { id := 3, name := "CI".toList, status := "completed".toList,
    conclusion := some "success".toList, created_at := 0, started_at := some 0,
    updated_at := 0, jobs := [sampleJob "build".toList 0 0 0] }

/-- Two overlapping jobs used to exercise the sparkline buckets. -/
def sampleSparkJobs : List Job :=
  [sampleJob "a".toList 0 0 10, sampleJob "b".toList 0 5 10]

/-! ### Arithmetic bridge lemmas -/

theorem ratFloor_eq (q : ℚ) : q.floor = ⌊q⌋ :=
  (Rat.floor_def' q).trans Rat.floor_def.symm

theorem pyInt_eq_floor {q : ℚ} (h : 0 ≤ q) : pyInt q = ⌊q⌋ := by
  simp [pyInt, h, ratFloor_eq]

theorem pyInt_intCast (z : ℤ) : pyInt ((z : ℤ) : ℚ) = z := by
  rcases le_or_lt 0 z with h | h
  · rw [pyInt_eq_floor (by exact_mod_cast h), Int.floor_intCast]
  · have hq : ¬ (0 : ℚ) ≤ (z : ℚ) := by exact_mod_cast not_le.mpr h
    rw [pyInt, if_neg hq, ratFloor_eq]
    rw [show (-(z : ℚ)) = ((-z : ℤ) : ℚ) by push_cast; ring, Int.floor_intCast, neg_neg]

theorem floor_div_natCast (s : ℚ) (n : ℕ) (hn : 0 < n) :
    ⌊s / (n : ℚ)⌋ = ⌊s⌋ / (n : ℤ) := by
  have hn' : (0 : ℚ) < (n : ℚ) := by exact_mod_cast hn
  have hnz : (0 : ℤ) < (n : ℤ) := by exact_mod_cast hn
  rw [Int.floor_eq_iff]
  constructor
  · rw [le_div_iff₀ hn']
    have h1 : ((⌊s⌋ / (n : ℤ)) * (n : ℤ) : ℤ) ≤ ⌊s⌋ := Int.ediv_mul_le _ (ne_of_gt hnz)
    calc ((⌊s⌋ / (n : ℤ) : ℤ) : ℚ) * (n : ℚ) = (((⌊s⌋ / (n : ℤ)) * (n : ℤ) : ℤ) : ℚ) := by
          push_cast; ring
    _ ≤ ((⌊s⌋ : ℤ) : ℚ) := by exact_mod_cast h1
    _ ≤ s := Int.floor_le s
  · rw [div_lt_iff₀ hn']
    have h2 : ⌊s⌋ < (⌊s⌋ / (n : ℤ) + 1) * (n : ℤ) := Int.lt_ediv_add_one_mul_self _ hnz
    have h3 : ⌊s⌋ + 1 ≤ (⌊s⌋ / (n : ℤ) + 1) * (n : ℤ) := Int.add_one_le_iff.mpr h2
    calc s < (⌊s⌋ : ℚ) + 1 := Int.lt_floor_add_one s
    _ ≤ (((⌊s⌋ / (n : ℤ) + 1) * (n : ℤ) : ℤ) : ℚ) := by exact_mod_cast h3
    _ = ((⌊s⌋ / (n : ℤ) : ℤ) : ℚ) * (n : ℚ) + (n : ℚ) := by push_cast; ring
    _ = (((⌊s⌋ / (n : ℤ) : ℤ) : ℚ) + 1) * (n : ℚ) := by ring

theorem pyFloorDiv_natCast (s : ℚ) (n : ℕ) (hn : 0 < n) :
    pyInt (pyFloorDiv s (n : ℚ)) = ⌊s⌋ / (n : ℤ) := by
  rw [pyFloorDiv, ratFloor_eq, pyInt_intCast, floor_div_natCast s n hn]

theorem pyInt_pyMod (s : ℚ) (n : ℕ) (hn : 0 < n) :
    pyInt (pyMod s (n : ℚ)) = ⌊s⌋ % (n : ℤ) := by
  have hn' : (0 : ℚ) < (n : ℚ) := by exact_mod_cast hn
  have hmod : pyMod s (n : ℚ) = s - ((( (n : ℤ) * ⌊s / (n : ℚ)⌋ : ℤ)) : ℚ) := by
    rw [pyMod, ratFloor_eq]; push_cast; ring
  have h0 : 0 ≤ pyMod s (n : ℚ) := by
    rw [pyMod, ratFloor_eq]
    have := Int.sub_floor_div_mul_nonneg s hn'
    calc (0 : ℚ) ≤ s - ⌊s / (n : ℚ)⌋ * (n : ℚ) := this
    _ = s - (n : ℚ) * (⌊s / (n : ℚ)⌋ : ℚ) := by ring
  rw [pyInt_eq_floor h0, hmod, Int.floor_sub_int, floor_div_natCast s n hn, Int.emod_def]

theorem pyMod_lt (s : ℚ) (n : ℕ) (hn : 0 < n) : pyMod s (n : ℚ) < (n : ℚ) := by
  have hn' : (0 : ℚ) < (n : ℚ) := by exact_mod_cast hn
  have := Int.sub_floor_div_mul_lt s hn'
  calc pyMod s (n : ℚ) = s - ⌊s / (n : ℚ)⌋ * (n : ℚ) := by
        rw [pyMod, ratFloor_eq]; ring
  _ < (n : ℚ) := this

theorem pyMod_nonneg (s : ℚ) (n : ℕ) (hn : 0 < n) : 0 ≤ pyMod s (n : ℚ) := by
  have hn' : (0 : ℚ) < (n : ℚ) := by exact_mod_cast hn
  have := Int.sub_floor_div_mul_nonneg s hn'
  calc (0 : ℚ) ≤ s - ⌊s / (n : ℚ)⌋ * (n : ℚ) := this
  _ = pyMod s (n : ℚ) := by rw [pyMod, ratFloor_eq]; ring

theorem floor_pyMod (s : ℚ) (n : ℕ) (hn : 0 < n) :
    ⌊pyMod s (n : ℚ)⌋ = ⌊s⌋ % (n : ℤ) := by
  have h := pyInt_pyMod s n hn
  rwa [pyInt_eq_floor (pyMod_nonneg s n hn)] at h

/-- Claim C8: for every non-negative seconds value, `format_duration`
returns `"Ns"` below one minute, `"MmSs"` below one hour and `"HhMm"`
otherwise, every component integer-truncated (here expressed through
integer floor, division and remainder of the whole-second count), and
the five boundary examples evaluate as stated. -/
theorem format_duration_spec :
    (∀ s : ℚ, 0 ≤ s →
      (s < 60 → format_duration s = intToChars ⌊s⌋ ++ ['s']) ∧
      (60 ≤ s → s < 3600 →
        format_duration s =
          intToChars (⌊s⌋ / 60) ++ ['m'] ++ intToChars (⌊s⌋ % 60) ++ ['s']) ∧
      (3600 ≤ s →
        format_duration s =
          intToChars (⌊s⌋ / 3600) ++ ['h'] ++ intToChars (⌊s⌋ % 3600 / 60) ++ ['m'])) ∧
    format_duration 0 = "0s".toList ∧
    format_duration 59 = "59s".toList ∧
    format_duration 60 = "1m0s".toList ∧
    format_duration 3599 = "59m59s".toList ∧
    format_duration 3600 = "1h0m".toList := by
  refine ⟨fun s hs => ⟨?_, ?_, ?_⟩, by decide, by decide, by decide, by decide, by decide⟩
  · intro h
    rw [format_duration, if_pos h, pyInt_eq_floor hs]
  · intro h1 h2
    have e60 : (60 : ℚ) = ((60 : ℕ) : ℚ) := by norm_num
    rw [format_duration, if_neg (not_lt.mpr h1), if_pos h2, e60,
      pyFloorDiv_natCast s 60 (by norm_num), pyInt_pyMod s 60 (by norm_num)]
    norm_num
  · intro h3
    have e60 : (60 : ℚ) = ((60 : ℕ) : ℚ) := by norm_num
    have e3600 : (3600 : ℚ) = ((3600 : ℕ) : ℚ) := by norm_num
    rw [format_duration, if_neg (not_lt.mpr (by linarith : (60 : ℚ) ≤ s)),
      if_neg (not_lt.mpr h3), e3600, pyFloorDiv_natCast s 3600 (by norm_num), e60,
      pyFloorDiv_natCast (pyMod s ((3600 : ℕ) : ℚ)) 60 (by norm_num),
      floor_pyMod s 3600 (by norm_num)]
    norm_num

theorem format_duration_spec_witness :
    format_duration 59 = intToChars ⌊(59 : ℚ)⌋ ++ ['s'] :=
  (format_duration_spec.1 59 (by norm_num)).1 (by norm_num)

/-- Claim C1 counterexample: the bar-length contract does not hold for
every input. At `queue_secs = 2`, `run_secs = 0`, `max_secs = 1` and
positive width 16 the rendered bar has 32 characters, not 16 (the
queued segment alone exceeds the width and `ljust` never truncates). -/
theorem render_job_bar_overflow_counterexample :
    0 < 16 ∧ (render_job_bar 2 0 1 16).length ≠ 16 := by decide

/-- Claim C1 (amended): when `0 ≤ queue_secs`, `0 ≤ run_secs` and
`queue_secs + run_secs ≤ max_secs` — as holds at every call site, where
`max_secs` is a maximum of total durations — the bar is a queued-glyph
segment, a running-glyph segment and space padding of total length
exactly `width`; moreover `max_secs = 0` gives all spaces for any
inputs, as does `queue_secs = run_secs = 0`. -/
theorem render_job_bar_shape (q r m : ℚ) (w : ℕ) :
    (0 ≤ q → 0 ≤ r → q + r ≤ m →
      ∃ a b c : ℕ, a + b + c = w ∧
        render_job_bar q r m w =
          List.replicate a '░' ++ List.replicate b '█' ++ List.replicate c ' ') ∧
    (m = 0 → render_job_bar q r m w = List.replicate w ' ') ∧
    (q = 0 → r = 0 → render_job_bar q r m w = List.replicate w ' ') := by
  refine ⟨?_, ?_, ?_⟩
  · intro hq hr hsum
    by_cases hm : m = 0
    · refine ⟨0, 0, w, by omega, ?_⟩
      simp [render_job_bar, hm]
    · have hm' : 0 < m := lt_of_le_of_ne (le_trans (by linarith) hsum) (Ne.symm hm)
      have hq0 : (0 : ℚ) ≤ q / m * (w : ℚ) := by positivity
      have ht0 : (0 : ℚ) ≤ (q + r) / m * (w : ℚ) := by positivity
      have hmono : q / m * (w : ℚ) ≤ (q + r) / m * (w : ℚ) := by
        gcongr
        linarith
      have hub : (q + r) / m * (w : ℚ) ≤ (w : ℚ) := by
        have h1 : (q + r) / m ≤ 1 := (div_le_one hm').mpr hsum
        calc (q + r) / m * (w : ℚ) ≤ 1 * (w : ℚ) := by
              apply mul_le_mul_of_nonneg_right h1 (by positivity)
        _ = (w : ℚ) := one_mul _
      have hqfloor : 0 ≤ ⌊q / m * (w : ℚ)⌋ := Int.floor_nonneg.mpr hq0
      have htfloor : ⌊(q + r) / m * (w : ℚ)⌋ ≤ (w : ℤ) := by
        have := Int.floor_le_floor hub
        rwa [Int.floor_natCast] at this
      have hmonofloor : ⌊q / m * (w : ℚ)⌋ ≤ ⌊(q + r) / m * (w : ℚ)⌋ :=
        Int.floor_le_floor hmono
      refine ⟨⌊q / m * (w : ℚ)⌋.toNat,
        (⌊(q + r) / m * (w : ℚ)⌋ - ⌊q / m * (w : ℚ)⌋).toNat,
        w - (⌊q / m * (w : ℚ)⌋.toNat +
          (⌊(q + r) / m * (w : ℚ)⌋ - ⌊q / m * (w : ℚ)⌋).toNat), ?_, ?_⟩
      · have hsumchars : ⌊q / m * (w : ℚ)⌋.toNat +
            (⌊(q + r) / m * (w : ℚ)⌋ - ⌊q / m * (w : ℚ)⌋).toNat =
            ⌊(q + r) / m * (w : ℚ)⌋.toNat := by
          rw [← Int.toNat_add hqfloor (by omega)]
          congr 1
          omega
        have : ⌊(q + r) / m * (w : ℚ)⌋.toNat ≤ w := Int.toNat_le.mpr htfloor
        omega
      · simp only [render_job_bar, if_neg hm, pyLjust, pyInt_eq_floor hq0,
          pyInt_eq_floor ht0]
        rw [List.length_append, List.length_replicate, List.length_replicate,
          List.append_assoc]
  · intro hm
    simp [render_job_bar, hm]
  · intro hq hr
    subst hq
    subst hr
    by_cases hm : m = 0
    · simp [render_job_bar, hm]
    · simp [render_job_bar, hm, pyLjust, pyInt, ratFloor_eq]

theorem render_job_bar_shape_witness :
    ∃ a b c : ℕ, a + b + c = 10 ∧
      render_job_bar 30 60 90 10 =
        List.replicate a '░' ++ List.replicate b '█' ++ List.replicate c ' ' :=
  (render_job_bar_shape 30 60 90 10).1 (by norm_num) (by norm_num) (by norm_num)

/-- Claim C4: in the unified diff, the per-job delta tag for a name
present in both runs is computed from `run_delta`, the difference of the
two run durations: it is `"~same"` exactly when `|run_delta| < 60`,
otherwise a `+`-signed formatted duration when positive and a
`-`-signed one when negative; in the scenario run1 `queue=30s run=120s`
against run2 `queue=30s run=50s` the tag is `"-1m10s"` and appears in
the rendered diff. -/
theorem delta_tag_spec :
    (∀ r1 r2 : ℚ,
      (delta_str (r2 - r1) = "~same".toList ↔ |r2 - r1| < 60) ∧
      (60 ≤ r2 - r1 → delta_str (r2 - r1) = '+' :: format_duration (r2 - r1)) ∧
      (r2 - r1 ≤ -60 → delta_str (r2 - r1) = '-' :: format_duration (r1 - r2))) ∧
    delta_str ((sampleJob "build".toList 0 30 80).run_duration_seconds -
      (sampleJob "build".toList 0 30 150).run_duration_seconds) = "-1m10s".toList ∧
    "-1m10s".toList <:+: render_unified_diff sampleRun1 sampleRun2 140 := by
  refine ⟨fun r1 r2 => ⟨⟨fun h => ?_, fun h => by rw [delta_str, if_pos h]⟩, ?_, ?_⟩,
    by decide, ?_⟩
  · by_contra habs
    rw [delta_str, if_neg habs] at h
    have hsame : "~same".toList = '~' :: "same".toList := rfl
    rw [hsame] at h
    split_ifs at h
    · injection h with h1 h2
      exact absurd h1 (by decide)
    · injection h with h1 h2
      exact absurd h1 (by decide)
  · intro h
    have habs : ¬ |r2 - r1| < 60 := by
      rw [not_lt]
      calc (60 : ℚ) ≤ r2 - r1 := h
      _ ≤ |r2 - r1| := le_abs_self _
    rw [delta_str, if_neg habs, if_pos (by linarith : r2 - r1 > 0)]
  · intro h
    have habs : ¬ |r2 - r1| < 60 := by
      rw [not_lt]
      calc (60 : ℚ) ≤ -(r2 - r1) := by linarith
      _ ≤ |r2 - r1| := neg_le_abs _
    rw [delta_str, if_neg habs, if_neg (by linarith : ¬ r2 - r1 > 0),
      (by ring : -(r2 - r1) = r1 - r2)]
  · set_option maxRecDepth 400000 in decide

theorem pyDigit_ne_sign (d : ℕ) : pyDigit d ≠ '-' ∧ pyDigit d ≠ '+' := by
  rcases d with _|_|_|_|_|_|_|_|_|d
  · exact by decide
  · exact by decide
  · exact by decide
  · exact by decide
  · exact by decide
  · exact by decide
  · exact by decide
  · exact by decide
  · exact by decide
  · constructor
    · show ('9' : Char) ≠ '-'
      decide
    · show ('9' : Char) ≠ '+'
      decide

theorem natToCharsAux_no_sign :
    ∀ fuel n : ℕ, ∀ c ∈ natToCharsAux fuel n, c ≠ '-' ∧ c ≠ '+' := by
  intro fuel
  induction fuel with
  | zero => intro n c hc; exact absurd hc (List.not_mem_nil c)
  | succ fuel ih =>
    intro n c hc
    rw [natToCharsAux] at hc
    split_ifs at hc
    · rw [List.mem_singleton] at hc
      subst hc
      exact pyDigit_ne_sign n
    · rcases List.mem_append.mp hc with h | h
      · exact ih _ c h
      · rw [List.mem_singleton] at h
        subst h
        exact pyDigit_ne_sign _

theorem intToChars_no_sign (i : ℤ) (h : 0 ≤ i) :
    ∀ c ∈ intToChars i, c ≠ '-' ∧ c ≠ '+' := by
  intro c hc
  rw [intToChars, if_neg (not_lt.mpr h), natToChars] at hc
  exact natToCharsAux_no_sign _ _ c hc

theorem pyInt_nonneg {q : ℚ} (h : 0 ≤ q) : 0 ≤ pyInt q := by
  rw [pyInt_eq_floor h]
  exact Int.floor_nonneg.mpr h

theorem pyFloorDiv_nonneg {a : ℚ} (b : ℚ) (ha : 0 ≤ a) (hb : 0 ≤ b) :
    0 ≤ pyFloorDiv a b := by
  rw [pyFloorDiv, ratFloor_eq]
  have : (0 : ℚ) ≤ a / b := by positivity
  exact_mod_cast Int.floor_nonneg.mpr this

/-- Claim C9 counterexample: the aggregate delta columns of the unified
diff do not carry an explicit sign for a negative delta. For a delta of
`-70` seconds the column renders as the unsigned right-justified
`"1m10s"` with no `-` anywhere. -/
theorem delta_column_unsigned_counterexample :
    (-70 : ℚ) < 0 ∧ deltaColumn (-70) = pyRjust (format_duration 70) 10 ∧
      '-' ∉ deltaColumn (-70) := by decide

/-- Claim C9 (amended): `format_duration` emits no sign character on
non-negative input; the per-job delta tags carry an explicit `+` or `-`
followed by the formatted absolute delta; the aggregate delta columns
carry a leading `+` exactly when the delta is positive and are rendered
unsigned otherwise, the magnitude always being `format_duration` of the
absolute value. -/
theorem sign_handling_spec :
    (∀ s : ℚ, 0 ≤ s → ∀ c ∈ format_duration s, c ≠ '-' ∧ c ≠ '+') ∧
    (∀ d : ℚ, 60 ≤ |d| →
      delta_str d = (if 0 < d then '+' else '-') :: format_duration |d|) ∧
    (∀ d : ℚ,
      (0 < d → deltaColumn d = '+' :: pyRjust (format_duration |d|) 10) ∧
      (d ≤ 0 → deltaColumn d = pyRjust (format_duration |d|) 10)) := by
  refine ⟨?_, ?_, ?_⟩
  · intro s hs c hc
    rw [format_duration] at hc
    split_ifs at hc with h1 h2
    · rcases List.mem_append.mp hc with h | h
      · exact intToChars_no_sign _ (pyInt_nonneg hs) c h
      · rw [List.mem_singleton] at h
        subst h
        exact ⟨by decide, by decide⟩
    · rcases List.mem_append.mp hc with h | h
      · rcases List.mem_append.mp h with h' | h'
        · rcases List.mem_append.mp h' with h'' | h''
          · exact intToChars_no_sign _
              (pyInt_nonneg (pyFloorDiv_nonneg 60 hs (by norm_num))) c h''
          · rw [List.mem_singleton] at h''
            subst h''
            exact ⟨by decide, by decide⟩
        · have h60 : (60 : ℚ) = ((60 : ℕ) : ℚ) := by norm_num
          refine intToChars_no_sign _ ?_ c h'
          rw [h60]
          exact pyInt_nonneg (pyMod_nonneg s 60 (by norm_num))
      · rw [List.mem_singleton] at h
        subst h
        exact ⟨by decide, by decide⟩
    · rcases List.mem_append.mp hc with h | h
      · rcases List.mem_append.mp h with h' | h'
        · rcases List.mem_append.mp h' with h'' | h''
          · exact intToChars_no_sign _
              (pyInt_nonneg (pyFloorDiv_nonneg 3600 hs (by norm_num))) c h''
          · rw [List.mem_singleton] at h''
            subst h''
            exact ⟨by decide, by decide⟩
        · have h3600 : (3600 : ℚ) = ((3600 : ℕ) : ℚ) := by norm_num
          refine intToChars_no_sign _
            (pyInt_nonneg (pyFloorDiv_nonneg 60 ?_ (by norm_num))) c h'
          rw [h3600]
          exact pyMod_nonneg s 3600 (by norm_num)
      · rw [List.mem_singleton] at h
        subst h
        exact ⟨by decide, by decide⟩
  · intro d hd
    rcases le_or_lt 60 d with h | h
    · rw [delta_str, if_neg (by rw [not_lt]; exact le_trans h (le_abs_self d)),
        if_pos (by linarith : d > 0), if_pos (by linarith : (0 : ℚ) < d),
        abs_of_pos (by linarith : (0 : ℚ) < d)]
    · have hneg : d ≤ -60 := by
        rcases abs_cases d with ⟨he, _⟩ | ⟨he, _⟩
        · linarith [hd, he]
        · linarith [hd, he]
      rw [delta_str, if_neg (by rw [not_lt]; exact le_trans hd le_rfl),
        if_neg (by linarith : ¬ d > 0), if_neg (by linarith : ¬ (0 : ℚ) < d),
        abs_of_nonpos (by linarith : d ≤ 0)]
  · intro d
    constructor
    · intro h
      rw [deltaColumn, if_pos h, List.singleton_append]
    · intro h
      rw [deltaColumn, if_neg (not_lt.mpr h), List.nil_append]

theorem sign_handling_spec_witness :
    delta_str 70 = (if (0 : ℚ) < 70 then '+' else '-') :: format_duration |(70 : ℚ)| :=
  sign_handling_spec.2.1 70 (by norm_num)

theorem mem_pyReplaceAux_empty_rep (pat : List Char) :
    ∀ fuel s c, c ∈ pyReplaceAux pat [] fuel s → c ∈ s := by
  intro fuel
  induction fuel with
  | zero =>
    intro s c hc
    cases s with
    | nil => exact absurd hc (List.not_mem_nil c)
    | cons c0 cs => exact hc
  | succ fuel ih =>
    intro s c hc
    cases s with
    | nil => exact absurd hc (List.not_mem_nil c)
    | cons c0 cs =>
      rw [pyReplaceAux] at hc
      split_ifs at hc with hpre
      · rw [List.nil_append] at hc
        exact List.drop_subset _ _ (ih _ c hc)
      · rcases List.mem_cons.mp hc with h | h
        · exact List.mem_cons.mpr (Or.inl h)
        · exact List.mem_cons.mpr (Or.inr (ih _ c h))

theorem not_mem_pyReplaceAux_single (c : Char) :
    ∀ fuel s, s.length ≤ fuel → c ∉ pyReplaceAux [c] [] fuel s := by
  intro fuel
  induction fuel with
  | zero =>
    intro s hs
    rw [List.length_eq_zero.mp (Nat.le_zero.mp hs)]
    exact List.not_mem_nil c
  | succ fuel ih =>
    intro s hs
    cases s with
    | nil => exact List.not_mem_nil c
    | cons c0 cs =>
      rw [pyReplaceAux]
      by_cases hc0 : c0 = c
      · subst hc0
        rw [if_pos (by simp [List.isPrefixOf]), List.nil_append]
        exact ih _ (by
          simp only [List.length_cons] at hs
          simpa using Nat.lt_succ_iff.mp (Nat.lt_succ_of_le hs))
      · rw [if_neg (by simp [List.isPrefixOf]; exact fun h => hc0 h.symm)]
        intro hmem
        rcases List.mem_cons.mp hmem with h | h
        · exact hc0 h.symm
        · exact ih cs (by simp only [List.length_cons] at hs; omega) h

/-- Claim C7 counterexample: the specification says a trailing `")"` is
stripped, but the code removes every occurrence of `")"`. On the name
`"a)b)"` the code yields `"ab"` while the claimed algorithm yields
`"a)b"`. -/
theorem normalize_trailing_paren_counterexample :
    normalize_job_name "a)b)".toList = "ab".toList ∧
    normalize_job_name_claimed "a)b)".toList = "a)b".toList ∧
    normalize_job_name "a)b)".toList ≠ normalize_job_name_claimed "a)b)".toList := by
  decide

/-- Claim C7 (amended): `normalize_job_name` takes the substring after
the last `/`, trims whitespace, then removes every occurrence of each
decoration substring — `"build ("`, `")"` (every occurrence, not only a
trailing one) and the OS-version labels — leaving unknown decorations
unchanged; no `")"` ever survives, and the claim's two examples (plus
an unknown decoration passing through) evaluate as stated. -/
theorem normalize_job_name_spec :
    (∀ name : List Char, ')' ∉ normalize_job_name name) ∧
    normalize_job_name "build (ubuntu-22.04, test)".toList = "test".toList ∧
    normalize_job_name "group / actual-job".toList = "actual-job".toList ∧
    normalize_job_name "custom-os, job".toList = "custom-os, job".toList := by
  refine ⟨?_, by decide, by decide, by decide⟩
  intro name hmem
  simp only [normalize_job_name, pyReplace] at hmem
  exact not_mem_pyReplaceAux_single ')' _ _ le_rfl
    (mem_pyReplaceAux_empty_rep _ _ _ _
      (mem_pyReplaceAux_empty_rep _ _ _ _
        (mem_pyReplaceAux_empty_rep _ _ _ _
          (mem_pyReplaceAux_empty_rep _ _ _ _
            (mem_pyReplaceAux_empty_rep _ _ _ _
              (mem_pyReplaceAux_empty_rep _ _ _ _ hmem))))))

theorem delta_tag_spec_witness :
    delta_str ((50 : ℚ) - 120) = '-' :: format_duration ((120 : ℚ) - 50) :=
  (delta_tag_spec.1 120 50).2.2 (by norm_num)

theorem normalize_job_name_spec_witness :
    ')' ∉ normalize_job_name "deploy (linux)".toList :=
  normalize_job_name_spec.1 "deploy (linux)".toList

/-- Claim C3: for every job list and width, `render_sparkline` returns
exactly `width` characters; when no job has both `started_at` and
`completed_at` the result is `width` blanks; when the filtered set is
non-empty and its span `max(completed_at) - min(created_at)` is zero the
result is `width` copies of the highest density glyph. -/
theorem render_sparkline_shape (jobs : List Job) (width : ℕ) :
    (render_sparkline jobs width).length = width ∧
    (completedFilter jobs = [] →
      render_sparkline jobs width = List.replicate width ' ') ∧
    (completedFilter jobs ≠ [] →
      pyMax ((completedFilter jobs).map (fun j => j.completed_at.getD 0)) -
        pyMin ((completedFilter jobs).map (fun j => j.created_at)) = 0 →
      render_sparkline jobs width = List.replicate width '█') := by
  refine ⟨?_, ?_, ?_⟩
  · simp only [render_sparkline]
    split_ifs <;> simp
  · intro h
    simp [render_sparkline, h]
  · intro hne h0
    have hjobs : jobs ≠ [] := by
      intro h
      exact hne (by rw [h]; rfl)
    simp only [render_sparkline, if_neg hjobs, if_neg hne, if_pos h0]

theorem render_sparkline_shape_witness :
    render_sparkline [sampleJob "build".toList 0 0 0] 5 = List.replicate 5 '█' :=
  (render_sparkline_shape [sampleJob "build".toList 0 0 0] 5).2.2
    (by decide) (by decide)

/-- Claim C2: when the filtered job set is non-empty and the span is
positive, the `i`-th sparkline character is determined by the number of
filtered jobs whose interval `[started_at, completed_at)` overlaps the
`i`-th of `width` equal buckets (`started < bucket_end` and
`completed > bucket_start`); a zero count gives the blank glyph, a
positive count the glyph at index
`clamp(floor(count / N * 8), 1, 8)` with `N` the number of filtered
jobs. -/
theorem render_sparkline_bucket_char (jobs : List Job) (width i : ℕ)
    (hcf : completedFilter jobs ≠ [])
    (hspan : 0 < pyMax ((completedFilter jobs).map (fun j => j.completed_at.getD 0)) -
      pyMin ((completedFilter jobs).map (fun j => j.created_at)))
    (hi : i < width) :
    (render_sparkline jobs width).getD i ' ' =
      (let min_time := pyMin ((completedFilter jobs).map (fun j => j.created_at))
       let span := pyMax ((completedFilter jobs).map (fun j => j.completed_at.getD 0)) -
         min_time
       let bucket_start := min_time + (i : ℚ) * (span / (width : ℚ))
       let bucket_end := min_time + ((i : ℚ) + 1) * (span / (width : ℚ))
       let running_count := (completedFilter jobs).countP (fun j =>
         decide (j.started_at.getD 0 < bucket_end) &&
           decide (j.completed_at.getD 0 > bucket_start))
       if running_count = 0 then ' '
       else SPARK_BLOCKS.getD
         (min 8 (max 1
           ⌊(running_count : ℚ) / ((completedFilter jobs).length : ℚ) * 8⌋)).toNat ' ') := by
  have hjobs : jobs ≠ [] := by
    intro h
    subst h
    exact hcf rfl
  simp only [render_sparkline, if_neg hjobs, if_neg hcf, if_neg (ne_of_gt hspan)]
  rw [List.getD_eq_getElem?_getD, List.getElem?_map, List.getElem?_range hi]
  simp only [Option.map_some', Option.getD_some, sparkBucketChar]
  rw [show pyMin ((completedFilter jobs).map (fun j => j.created_at)) +
        (i : ℚ) * ((pyMax ((completedFilter jobs).map (fun j => j.completed_at.getD 0)) -
          pyMin ((completedFilter jobs).map (fun j => j.created_at))) / (width : ℚ)) +
        (pyMax ((completedFilter jobs).map (fun j => j.completed_at.getD 0)) -
          pyMin ((completedFilter jobs).map (fun j => j.created_at))) / (width : ℚ) =
      pyMin ((completedFilter jobs).map (fun j => j.created_at)) +
        ((i : ℚ) + 1) * ((pyMax ((completedFilter jobs).map (fun j => j.completed_at.getD 0)) -
          pyMin ((completedFilter jobs).map (fun j => j.created_at))) / (width : ℚ))
    from by ring]
  by_cases hzero : (completedFilter jobs).countP (fun j =>
      decide (j.started_at.getD 0 <
        pyMin ((completedFilter jobs).map (fun j => j.created_at)) +
          ((i : ℚ) + 1) * ((pyMax ((completedFilter jobs).map (fun j => j.completed_at.getD 0)) -
            pyMin ((completedFilter jobs).map (fun j => j.created_at))) / (width : ℚ))) &&
      decide (j.completed_at.getD 0 >
        pyMin ((completedFilter jobs).map (fun j => j.created_at)) +
          (i : ℚ) * ((pyMax ((completedFilter jobs).map (fun j => j.completed_at.getD 0)) -
            pyMin ((completedFilter jobs).map (fun j => j.created_at))) / (width : ℚ)))) = 0
  · rw [if_pos hzero, if_pos hzero]
    rfl
  · rw [if_neg hzero, if_neg hzero, pyInt_eq_floor (by positivity)]

theorem render_sparkline_bucket_char_witness :
    (render_sparkline sampleSparkJobs 4).getD 0 ' ' = '▄' := by
  rw [render_sparkline_bucket_char sampleSparkJobs 4 0 (by decide) (by decide) (by decide)]
  decide

/-- Claim C10: when the jobs with both timestamps form a non-empty set
whose span `max(completed_at) - min(created_at)` is zero,
`render_single_run` returns only the line `"All jobs completed
instantly"` — no header, table, summary, sparkline or critical path. -/
theorem render_single_run_instant (run : WorkflowRun) (width : ℕ)
    (hne : completedFilter run.jobs ≠ [])
    (h0 : pyMax ((completedFilter run.jobs).map (fun j => j.completed_at.getD 0)) -
      pyMin ((completedFilter run.jobs).map (fun j => j.created_at)) = 0) :
    render_single_run run width = "All jobs completed instantly".toList := by
  have hjobs : run.jobs ≠ [] := by
    intro h
    exact hne (by rw [h]; rfl)
  simp only [render_single_run, if_neg hjobs, if_neg hne, if_pos h0]

theorem render_single_run_instant_witness :
    render_single_run sampleInstantRun 120 = "All jobs completed instantly".toList :=
  render_single_run_instant sampleInstantRun 120 (by decide) (by decide)

/-- Claim C6 counterexample: the cross-cutting insight line is not
emitted whenever wall clock moved opposite to aggregate build time. At
`total_run_delta = 100`, `total_queue_delta = 0`, `wall_delta = -100`
the two deltas have opposite signs, yet the key-insight block consists
of the build-time regression line alone, with neither cross-cutting
message. -/
theorem insight_cross_counterexample :
    ((-100 : ℚ) < 0 ∧ (0 : ℚ) < 100) ∧
    insightLines 100 0 (-100) =
      ["  Run 2 spent ".toList ++ format_duration 100 ++
        " MORE in actual build time across all jobs.".toList] ∧
    "  Despite faster builds, wall clock time increased due to runner queue delays!".toList
      ∉ insightLines 100 0 (-100) ∧
    "  Build time savings translated to faster wall clock time.".toList
      ∉ insightLines 100 0 (-100) := by
  decide

/-- Claim C6 (amended): the key-insight block classifies build-time and
queue-time changes by the fixed 60-second thresholds, and emits a
cross-cutting line exactly when the aggregate build-time delta is
negative and the wall-clock delta non-zero: the queue-delay-masking
message when wall clock increased, the end-to-end-win message when it
decreased. -/
theorem insight_lines_spec (trd tqd wd : ℚ) :
    insightLines trd tqd wd =
      (if trd < -60 then
        ["  Run 2 saved ".toList ++ format_duration (-trd) ++
          " in actual build time across all jobs.".toList]
       else if trd > 60 then
        ["  Run 2 spent ".toList ++ format_duration trd ++
          " MORE in actual build time across all jobs.".toList]
       else ["  Actual build times are roughly the same.".toList]) ++
      (if tqd > 60 then
        ["  BUT Run 2 had ".toList ++ format_duration tqd ++
          " MORE queue wait time.".toList]
       else if tqd < -60 then
        ["  AND Run 2 had ".toList ++ format_duration (-tqd) ++
          " LESS queue wait time.".toList]
       else []) ++
      (if trd < 0 ∧ wd ≠ 0 then
        [[],
         if 0 < wd then
           "  Despite faster builds, wall clock time increased due to runner queue delays!".toList
         else
           "  Build time savings translated to faster wall clock time.".toList]
       else []) := by
  have hthird :
      (if wd > 0 ∧ trd < 0 then
        [([] : List Char),
         "  Despite faster builds, wall clock time increased due to runner queue delays!".toList]
       else if wd < 0 ∧ trd < 0 then
        [([] : List Char),
         "  Build time savings translated to faster wall clock time.".toList]
       else []) =
      (if trd < 0 ∧ wd ≠ 0 then
        [([] : List Char),
         if 0 < wd then
           "  Despite faster builds, wall clock time increased due to runner queue delays!".toList
         else
           "  Build time savings translated to faster wall clock time.".toList]
       else []) := by
    by_cases hw : wd > 0 ∧ trd < 0
    · rw [if_pos hw, if_pos ⟨hw.2, ne_of_gt hw.1⟩, if_pos hw.1]
    · rw [if_neg hw]
      by_cases hw2 : wd < 0 ∧ trd < 0
      · rw [if_pos hw2, if_pos ⟨hw2.2, ne_of_lt hw2.1⟩,
          if_neg (not_lt.mpr (le_of_lt hw2.1))]
      · have hcond : ¬ (trd < 0 ∧ wd ≠ 0) := by
          rintro ⟨ht, hne⟩
          rcases lt_or_gt_of_ne hne with h | h
          · exact hw2 ⟨h, ht⟩
          · exact hw ⟨h, ht⟩
        rw [if_neg hw2, if_neg hcond]
  rw [insightLines, hthird]

theorem strLe_total : ∀ a b, strLe a b = true ∨ strLe b a = true := by
  intro a
  induction a with
  | nil => intro b; left; rfl
  | cons x xs ih =>
    intro b
    cases b with
    | nil => right; rfl
    | cons y ys =>
      rcases lt_trichotomy x y with h | h | h
      · left
        simp [strLe, h]
      · subst h
        rcases ih ys with hh | hh
        · left
          simp [strLe, hh]
        · right
          simp [strLe, hh]
      · right
        simp [strLe, h]

theorem strLe_trans : ∀ a b c, strLe a b = true → strLe b c = true → strLe a c = true := by
  intro a
  induction a with
  | nil => intro b c _ _; rfl
  | cons x xs ih =>
    intro b c hab hbc
    cases b with
    | nil => exact absurd hab (by simp [strLe])
    | cons y ys =>
      cases c with
      | nil => exact absurd hbc (by simp [strLe])
      | cons z zs =>
        rcases lt_trichotomy x y with h1 | h1 | h1
        · rcases lt_trichotomy y z with h2 | h2 | h2
          · simp [strLe, lt_trans h1 h2]
          · subst h2
            simp [strLe, h1]
          · rw [strLe, if_neg (not_lt.mpr (le_of_lt h2)), if_neg (ne_of_gt h2)] at hbc
            exact absurd hbc (by simp)
        · subst h1
          rcases lt_trichotomy x z with h2 | h2 | h2
          · simp [strLe, h2]
          · subst h2
            rw [strLe, if_neg (lt_irrefl x), if_pos rfl] at hab hbc ⊢
            exact ih ys zs hab hbc
          · rw [strLe, if_neg (not_lt.mpr (le_of_lt h2)), if_neg (ne_of_gt h2)] at hbc
            exact absurd hbc (by simp)
        · rw [strLe, if_neg (not_lt.mpr (le_of_lt h1)), if_neg (ne_of_gt h1)] at hab
          exact absurd hab (by simp)

theorem strLe_iff_lex : ∀ a b, strLe a b = true ↔ List.Lex (· < ·) a b ∨ a = b := by
  intro a
  induction a with
  | nil =>
    intro b
    cases b with
    | nil => exact iff_of_true rfl (Or.inr rfl)
    | cons y ys => exact iff_of_true rfl (Or.inl List.Lex.nil)
  | cons x xs ih =>
    intro b
    cases b with
    | nil =>
      constructor
      · intro h
        exact absurd h (by simp [strLe])
      · rintro (h | h)
        · cases h
        · exact absurd h (by simp)
    | cons y ys =>
      by_cases h : x < y
      · refine iff_of_true (by simp [strLe, h]) (Or.inl (List.Lex.rel h))
      · by_cases he : x = y
        · subst he
          rw [strLe, if_neg h, if_pos rfl, ih ys]
          constructor
          · rintro (hl | hl)
            · exact Or.inl (List.Lex.cons hl)
            · subst hl
              exact Or.inr rfl
          · rintro (hl | hl)
            · cases hl with
              | cons htail => exact Or.inl htail
              | rel hrel => exact absurd hrel (lt_irrefl x)
            · injection hl with h1 h2
              exact Or.inr h2
        · rw [strLe, if_neg h, if_neg he]
          constructor
          · intro hf
            exact absurd hf (by simp)
          · rintro (hl | hl)
            · cases hl with
              | cons htail => exact absurd rfl he
              | rel hrel => exact absurd hrel h
            · injection hl with h1 h2
              exact absurd h1 he

theorem dictGet_cons_pos (k0 : List Char) (v0 : Job) (tl : List (List Char × Job))
    (k : List Char) (h : k0 = k) : dictGet ((k0, v0) :: tl) k = some v0 := by
  rw [dictGet, List.find?_cons_of_pos _ (by simp [h]), Option.map_some']

theorem dictGet_cons_neg (k0 : List Char) (v0 : Job) (tl : List (List Char × Job))
    (k : List Char) (h : ¬ k0 = k) : dictGet ((k0, v0) :: tl) k = dictGet tl k := by
  rw [dictGet, List.find?_cons_of_neg _ (by simp [h]), dictGet]

theorem dictGet_dictInsert (m : List (List Char × Job)) (k : List Char) (v : Job)
    (k' : List Char) :
    dictGet (dictInsert m k v) k' = if k = k' then some v else dictGet m k' := by
  induction m with
  | nil =>
    by_cases h : k = k'
    · rw [if_pos h]
      exact dictGet_cons_pos _ _ _ _ h
    · rw [if_neg h, dictInsert]
      rw [dictGet_cons_neg _ _ _ _ h]
  | cons hd tl ih =>
    obtain ⟨k0, v0⟩ := hd
    by_cases h0 : k0 = k
    · subst h0
      rw [dictInsert, if_pos rfl]
      by_cases h : k0 = k'
      · rw [if_pos h, dictGet_cons_pos _ _ _ _ h]
      · rw [if_neg h, dictGet_cons_neg _ _ _ _ h, dictGet_cons_neg _ _ _ _ h]
    · rw [dictInsert, if_neg h0]
      by_cases h : k0 = k'
      · have hne : ¬ k = k' := fun hh => h0 (hh.trans h.symm).symm
        rw [if_neg hne, dictGet_cons_pos _ _ _ _ h, dictGet_cons_pos _ _ _ _ h]
      · rw [dictGet_cons_neg _ _ _ _ h, dictGet_cons_neg _ _ _ _ h, ih]

theorem dictGet_isSome_iff (m : List (List Char × Job)) (k : List Char) :
    (dictGet m k).isSome = true ↔ k ∈ dictKeys m := by
  induction m with
  | nil => simp [dictGet, dictKeys]
  | cons hd tl ih =>
    obtain ⟨k0, v0⟩ := hd
    by_cases h : k0 = k
    · subst h
      rw [dictGet_cons_pos _ _ _ _ rfl]
      constructor
      · intro _
        exact List.mem_cons.mpr (Or.inl rfl)
      · intro _
        rfl
    · rw [dictGet_cons_neg _ _ _ _ h, ih]
      constructor
      · exact fun hm => List.mem_cons.mpr (Or.inr hm)
      · intro hm
        rcases List.mem_cons.mp hm with h1 | h1
        · exact absurd h1.symm h
        · exact h1

theorem dictGet_foldl_insert (k : List Char) :
    ∀ (jobs : List Job) (m : List (List Char × Job)),
      dictGet (jobs.foldl (fun m j =>
        if j.completed_at.isSome then dictInsert m (normalize_job_name j.name) j
        else m) m) k =
      ((jobs.filter (fun j => j.completed_at.isSome &&
          decide (normalize_job_name j.name = k))).getLast?).or (dictGet m k) := by
  intro jobs
  induction jobs with
  | nil => intro m; rfl
  | cons j js ih =>
    intro m
    rw [List.foldl_cons, ih]
    by_cases hc : j.completed_at.isSome = true
    · by_cases hk : normalize_job_name j.name = k
      · rw [if_pos hc, dictGet_dictInsert, if_pos hk, List.filter_cons,
          if_pos (show (j.completed_at.isSome &&
            decide (normalize_job_name j.name = k)) = true by simp [hc, hk]),
          List.getLast?_cons]
        cases hlast : (js.filter (fun j => j.completed_at.isSome &&
            decide (normalize_job_name j.name = k))).getLast? with
        | some j' => rfl
        | none => rfl
      · rw [if_pos hc, dictGet_dictInsert, if_neg hk, List.filter_cons,
          if_neg (show ¬ (j.completed_at.isSome &&
            decide (normalize_job_name j.name = k)) = true by simp [hk])]
    · rw [if_neg hc, List.filter_cons,
        if_neg (show ¬ (j.completed_at.isSome &&
          decide (normalize_job_name j.name = k)) = true by simp [hc])]

/-- Claim C5: the per-run job mapping keeps, for each normalized name,
the last completed job in iteration order (a later duplicate silently
overwrites an earlier one); the iteration order of the unified diff is
the lexicographically sorted union of the two runs' normalized names;
and a name resolved in exactly one run renders that run's bar together
with the `"(missing)"` marker on the other side. -/
theorem diff_matching_spec :
    (∀ (jobs : List Job) (k : List Char),
      dictGet (jobsDict jobs) k =
        (jobs.filter (fun j => j.completed_at.isSome &&
          decide (normalize_job_name j.name = k))).getLast?) ∧
    (∀ jobs1 jobs2 : List (List Char × Job),
      List.Pairwise (fun a b => List.Lex (· < ·) a b) (allJobNames jobs1 jobs2) ∧
      ∀ n, n ∈ allJobNames jobs1 jobs2 ↔
        (dictGet jobs1 n).isSome = true ∨ (dictGet jobs2 n).isSome = true) ∧
    (∀ (md : ℚ) (name : List Char) (j1 : Job),
      ∃ row, diffRow md name (some j1) none = some row ∧
        "(missing)".toList <:+: row ∧
        render_job_bar j1.queue_duration_seconds j1.run_duration_seconds md 16 <:+: row) ∧
    (∀ (md : ℚ) (name : List Char) (j2 : Job),
      ∃ row, diffRow md name none (some j2) = some row ∧
        "(missing)".toList <:+: row ∧
        render_job_bar j2.queue_duration_seconds j2.run_duration_seconds md 16 <:+: row) := by
  have hM : pyLjust "(missing)".toList 23 =
      "(missing)".toList ++ List.replicate 14 ' ' := by decide
  refine ⟨?_, ?_, ?_, ?_⟩
  · intro jobs k
    rw [jobsDict, dictGet_foldl_insert]
    exact Option.or_none
  · intro jobs1 jobs2
    constructor
    · have hsorted : List.Pairwise strLeP (allJobNames jobs1 jobs2) := by
        rw [allJobNames]
        exact @List.sorted_insertionSort (List Char) strLeP instDecRelStrLeP
          ⟨fun a b => strLe_total a b⟩ ⟨fun a b c => strLe_trans a b c⟩ _
      have hnodup : (allJobNames jobs1 jobs2).Nodup := by
        rw [allJobNames]
        exact (List.perm_insertionSort strLeP _).nodup_iff.mpr (List.nodup_dedup _)
      exact (hsorted.and hnodup).imp
        (fun hab => ((strLe_iff_lex _ _).mp hab.1).resolve_right hab.2)
    · intro n
      rw [allJobNames, List.mem_insertionSort, List.mem_dedup, List.mem_append,
        ← dictGet_isSome_iff jobs1 n, ← dictGet_isSome_iff jobs2 n]
  · intro md name j1
    refine ⟨_, rfl, ?_, ?_⟩
    · refine ⟨pyLjust (name.take 26) 28 ++ [' '] ++
        render_job_bar j1.queue_duration_seconds j1.run_duration_seconds md 16 ++
        [' '] ++ pyRjust (format_duration j1.total_duration_seconds) 6 ++ "  ".toList,
        List.replicate 14 ' ', ?_⟩
      rw [hM]
      simp [List.append_assoc]
    · refine ⟨pyLjust (name.take 26) 28 ++ [' '],
        [' '] ++ pyRjust (format_duration j1.total_duration_seconds) 6 ++ "  ".toList ++
          pyLjust "(missing)".toList 23, ?_⟩
      simp [List.append_assoc]
  · intro md name j2
    refine ⟨_, rfl, ?_, ?_⟩
    · refine ⟨pyLjust (name.take 26) 28 ++ [' '],
        List.replicate 14 ' ' ++ "  ".toList ++
          render_job_bar j2.queue_duration_seconds j2.run_duration_seconds md 16 ++
          [' '] ++ pyRjust (format_duration j2.total_duration_seconds) 6, ?_⟩
      rw [hM]
      simp [List.append_assoc]
    · refine ⟨pyLjust (name.take 26) 28 ++ [' '] ++ pyLjust "(missing)".toList 23 ++
        "  ".toList,
        [' '] ++ pyRjust (format_duration j2.total_duration_seconds) 6, ?_⟩
      simp [List.append_assoc]

theorem diff_matching_spec_witness :
    dictGet (jobsDict sampleRun1.jobs) "build".toList =
      (sampleRun1.jobs.filter (fun j => j.completed_at.isSome &&
        decide (normalize_job_name j.name = "build".toList))).getLast? :=
  diff_matching_spec.1 sampleRun1.jobs "build".toList
